import Mathlib

/-!
Shallow embedding of the cssparser-rs canonical recursive-descent parser
(src/parser.rs, AST from src/ast.rs), together with the lexical layer it
consumes.  The `crate::Token` enum and the logos-generated lexer that
`src/parser.rs` drives are not part of the sources under src/ (src/lib.rs
defines a different, flat-parser token set), so the tokenizer is modelled
from the spec (marked below); everything else is translated directly from
src/parser.rs and src/ast.rs.

Conventions of the embedding:
* Rust `f64`/`f32` values only ever arise here by parsing decimal literals,
  so they are represented exactly by `Dec` (mantissa over a power of ten);
  no rounding behaviour of IEEE floats is relied on by any claim.
* `u8` is modelled as `Nat` (the `u8` parser only yields values <= 255).
* Rust panics (`unwrap` failures) are a distinct `PResult.panicked` outcome.
* Recursion through block re-lexing is modelled with an explicit fuel
  parameter (the canonical design has no depth guard; see spec section 5);
  `PResult.noFuel` corresponds to exceeding the modelled stack depth.
* Byte spans are modelled as character spans; all concrete inputs used in
  the theorems are ASCII, where the two coincide.
-/

set_option maxRecDepth 100000

/-- Byte range of a token, mirroring `std::ops::Range<usize>` spans. -/
structure Span where
  lo : Nat
  hi : Nat
deriving DecidableEq, Repr

/-- Exact decimal number: `m / 10 ^ e`.  Stands in for Rust `f64`/`f32`
values, which in this parser are only ever produced by parsing decimal
literals without exponents, so the representation is exact. -/
structure Dec where
  m : Int
  e : Nat
deriving DecidableEq, Repr

/-- Whitespace class used by the lexer (space, tab, CR, LF, form feed),
from the spec's tokenizer contract. -/
def isWsC (c : Char) : Bool :=
  c = ' ' || c = '\t' || c = '\n' || c = '\r' || c = '\x0c'

def isIdentStart (c : Char) : Bool := c.isAlpha || c = '_'

def isIdentChar (c : Char) : Bool := c.isAlpha || c.isDigit || c = '_' || c = '-'

def trimChars (cs : List Char) : List Char :=
  ((cs.dropWhile isWsC).reverse.dropWhile isWsC).reverse

def digitsVal (l : List Char) : Nat :=
  l.foldl (fun a c => a * 10 + (c.toNat - 48)) 0

/-- Model of Rust `f64::from_str` restricted to the decimal forms this
parser can feed it: optional sign, digits, optional fraction, nothing else
(the `e`-exponent and `inf`/`nan` forms contain alphabetic characters and
can never occur in the numeric prefix of a `Dimension` token, nor in any
literal exercised by the claims). -/
def parseF64 (s : String) : Option Dec :=
  let p : Int × List Char :=
    match s.data with
    | '+' :: r => (1, r)
    | '-' :: r => (-1, r)
    | r => (1, r)
  let sgn := p.1
  let cs := p.2
  let ip := cs.takeWhile Char.isDigit
  let cs2 := cs.drop ip.length
  match cs2 with
  | [] =>
      if ip.isEmpty then none
      else some ⟨sgn * (digitsVal ip : Int), 0⟩
  | '.' :: fr =>
      let fp := fr.takeWhile Char.isDigit
      if fr.length ≠ fp.length then none
      else if ip.isEmpty && fp.isEmpty then none
      else some ⟨sgn * ((digitsVal ip * 10 ^ fp.length + digitsVal fp : Nat) : Int), fp.length⟩
  | _ => none

/-- Model of Rust `u8::from_str`: optional `+`, decimal digits, value at
most 255. -/
def parseU8 (s : String) : Option Nat :=
  let cs : List Char :=
    match s.data with
    | '+' :: r => r
    | r => r
  if cs.isEmpty then none
  else if cs.any (fun c => !c.isDigit) then none
  else
    let v := digitsVal cs
    if v ≤ 255 then some v else none

/-- Model of Rust `f32::from_str` on the same decimal fragment as
`parseF64`; the exact value is kept (no IEEE rounding is observable in any
claim). -/
def parseF32 (s : String) : Option Dec := parseF64 s

/-- `val.split_at(val.find(|c| c.is_alphabetic()).unwrap_or(val.len()))`
from the `Dimension` arms of src/parser.rs: split before the first
alphabetic character. -/
def splitAtAlpha (s : String) : String × String :=
  let pre := s.data.takeWhile (fun c => !c.isAlpha)
  (String.mk pre, String.mk (s.data.drop pre.length))

/-- `val.trim_end_matches('%')` from the `Percentage` arm. -/
def trimPctEnd (s : String) : String :=
  String.mk ((s.data.reverse.dropWhile (fun c => c = '%')).reverse)

/-- The token alphabet consumed by src/parser.rs (`crate::Token`).  The
variant set and payload shapes are exactly those the parser matches on. -/
inductive Tok where
  | Ident (s : String)
  | AtKeyword (s : String)
  | Hash (s : String)
  | QuotedString (s : String)
  | UnquotedUrl (s : String)
  | Number (s : String)
  | Percentage (s : String)
  | Dimension (s : String)
  | Function (s : String)
  | ParenthesisBlock (s : String)
  | SquareBracketBlock (s : String)
  | CurlyBracketBlock (s : String)
  | ClassSelector (s : String)
  | PseudoClassSelector (s : String)
  | CustomProperty (s : String)
  | Important
  | Comment (s : String)
  | Delim (s : String)
deriving DecidableEq, Repr

/-- A lexer item: `Result<Token, ()>` as produced by the logos lexer. -/
abbrev TokR := Except Unit Tok

deriving instance DecidableEq for Except

/-- Length of a balanced bracket capture: given the characters after an
opening bracket, the number of characters up to and including the matching
closer, tracking depth. -/
def balLen (op cl : Char) : List Char → Nat → Option Nat
  | [], _ => none
  | c :: cs, depth =>
      if c = cl then
        if depth = 0 then some 1 else (balLen op cl cs (depth - 1)).map (· + 1)
      else if c = op then (balLen op cl cs (depth + 1)).map (· + 1)
      else (balLen op cl cs depth).map (· + 1)

/-- Characters up to and including the terminator `q`, if present. -/
def closeLen (q : Char) : List Char → Option Nat
  | [] => none
  | c :: cs => if c = q then some 1 else (closeLen q cs).map (· + 1)

/-- Characters of a comment body after the opening slash-star, up to and
including the closing star-slash. -/
def commentLen : List Char → Option Nat
  | '*' :: '/' :: _ => some 2
  | _ :: cs => (commentLen cs).map (· + 1)
  | [] => none

/-- Scan one numeric literal.  `sgn` is the already-consumed sign prefix,
`cs` starts at the first digit or dot.  Returns the token and the total
number of characters consumed (including the sign).  Greedy extension per
the spec: trailing percent gives `Percentage`, trailing alphabetic unit
characters give `Dimension`, otherwise `Number`. -/
def numTok (sgn : List Char) (cs : List Char) : Tok × Nat :=
  let ip := cs.takeWhile Char.isDigit
  let r1 := cs.drop ip.length
  let pr : List Char × List Char :=
    match r1 with
    | '.' :: d :: _ =>
        if d.isDigit then
          let fp := (r1.drop 1).takeWhile Char.isDigit
          (ip ++ '.' :: fp, r1.drop (1 + fp.length))
        else (ip, r1)
    | _ => (ip, r1)
  let numCs := pr.1
  let r2 := pr.2
  match r2 with
  | '%' :: _ =>
      (Tok.Percentage (String.mk (sgn ++ numCs ++ ['%'])), sgn.length + numCs.length + 1)
  | c :: _ =>
      if c.isAlpha then
        let unit := r2.takeWhile Char.isAlpha
        (Tok.Dimension (String.mk (sgn ++ numCs ++ unit)), sgn.length + numCs.length + unit.length)
      else (Tok.Number (String.mk (sgn ++ numCs)), sgn.length + numCs.length)
  | [] => (Tok.Number (String.mk (sgn ++ numCs)), sgn.length + numCs.length)

/-- Modelled from the spec: the tokenizer of the canonical parser
(`crate::Token` with its logos rules) is not among the sources under src/;
this cursor scanner is reconstructed from spec sections 3 and 4.1 and from
the token shapes src/parser.rs consumes.  Notes:
* bracket tokens capture one balanced pair (the spec's section 3 wording);
  the section 4.1 aside that the match stops at the first same-type closer
  cannot reproduce the spec's own section 8 nested-rule example, so the
  balanced reading is used;
* `:`, `;`, `,`, `*` and the closing brackets are emitted as `Delim`
  tokens, since those are the patterns src/parser.rs matches;
* whitespace is skipped silently, comments are emitted as tokens.
Each step consumes at least one character; the fuel argument is set by
`lexChars` so that it can never run out. -/
def lexF : Nat → List Char → Nat → List (TokR × Span)
  | 0, _, _ => []
  | _ + 1, [], _ => []
  | fuel + 1, c :: cs, i =>
    let full := c :: cs
    let emit : Tok → Nat → List (TokR × Span) := fun t len =>
      (Except.ok t, ⟨i, i + len⟩) :: lexF fuel (full.drop len) (i + len)
    if isWsC c then lexF fuel cs (i + 1)
    else if c = '/' && cs.head? = some '*' then
      match commentLen (cs.drop 1) with
      | some n => emit (Tok.Comment (String.mk (full.take (2 + n)))) (2 + n)
      | none => [(Except.error (), ⟨i, i + full.length⟩)]
    else if c = '@' then
      match cs with
      | d :: _ =>
          if isIdentStart d then
            let name := cs.takeWhile isIdentChar
            emit (Tok.AtKeyword (String.mk name)) (1 + name.length)
          else emit (Tok.Delim "@") 1
      | [] => emit (Tok.Delim "@") 1
    else if c = '#' then
      let body := cs.takeWhile isIdentChar
      if body.isEmpty then emit (Tok.Delim "#") 1
      else emit (Tok.Hash (String.mk body)) (1 + body.length)
    else if c = '.' then
      match cs with
      | d :: _ =>
          if isIdentStart d then
            let body := cs.takeWhile isIdentChar
            emit (Tok.ClassSelector (String.mk ('.' :: body))) (1 + body.length)
          else if d.isDigit then
            let tn := numTok [] full
            emit tn.1 tn.2
          else emit (Tok.Delim ".") 1
      | [] => emit (Tok.Delim ".") 1
    else if c = ':' then
      match cs with
      | ':' :: d :: _ =>
          if isIdentStart d then
            let body := (cs.drop 1).takeWhile isIdentChar
            emit (Tok.PseudoClassSelector (String.mk (':' :: ':' :: body))) (2 + body.length)
          else emit (Tok.Delim ":") 1
      | d :: _ =>
          if isIdentStart d then
            let body := cs.takeWhile isIdentChar
            emit (Tok.PseudoClassSelector (String.mk (':' :: body))) (1 + body.length)
          else emit (Tok.Delim ":") 1
      | [] => emit (Tok.Delim ":") 1
    else if c = '-' then
      match cs with
      | '-' :: d :: _ =>
          if isIdentStart d then
            let body := (cs.drop 1).takeWhile isIdentChar
            emit (Tok.CustomProperty (String.mk ('-' :: '-' :: body))) (2 + body.length)
          else emit (Tok.Delim "-") 1
      | d :: _ =>
          if d.isDigit then
            let tn := numTok ['-'] cs
            emit tn.1 tn.2
          else emit (Tok.Delim "-") 1
      | [] => emit (Tok.Delim "-") 1
    else if c = '+' then
      match cs with
      | d :: _ =>
          if d.isDigit then
            let tn := numTok ['+'] cs
            emit tn.1 tn.2
          else emit (Tok.Delim "+") 1
      | [] => emit (Tok.Delim "+") 1
    else if c = '!' then
      if cs.take 9 = "important".data then emit Tok.Important 10
      else emit (Tok.Delim "!") 1
    else if c = '"' || c = '\'' then
      match closeLen c cs with
      | some n => emit (Tok.QuotedString (String.mk (cs.take (n - 1)))) (1 + n)
      | none => [(Except.error (), ⟨i, i + full.length⟩)]
    else if c.isDigit then
      let tn := numTok [] full
      emit tn.1 tn.2
    else if isIdentStart c then
      let body := cs.takeWhile isIdentChar
      let name := c :: body
      match cs.drop body.length with
      | '(' :: r3 =>
          if name = ['u', 'r', 'l'] then
            match closeLen ')' r3 with
            | some n =>
                let content := r3.take (n - 1)
                if content.contains '"' || content.contains '\'' then
                  emit (Tok.Function (String.mk name)) (name.length + 1)
                else emit (Tok.UnquotedUrl (String.mk content)) (name.length + 1 + n)
            | none => emit (Tok.Function (String.mk name)) (name.length + 1)
          else emit (Tok.Function (String.mk name)) (name.length + 1)
      | _ => emit (Tok.Ident (String.mk name)) name.length
    else if c = '(' then
      match balLen '(' ')' cs 0 with
      | some n => emit (Tok.ParenthesisBlock (String.mk (full.take (1 + n)))) (1 + n)
      | none => emit (Tok.Delim "(") 1
    else if c = '[' then
      match balLen '[' ']' cs 0 with
      | some n => emit (Tok.SquareBracketBlock (String.mk (full.take (1 + n)))) (1 + n)
      | none => emit (Tok.Delim "[") 1
    else if c = '{' then
      match balLen '{' '}' cs 0 with
      | some n => emit (Tok.CurlyBracketBlock (String.mk (full.take (1 + n)))) (1 + n)
      | none => emit (Tok.Delim "\x7b") 1
    else emit (Tok.Delim (String.mk [c])) 1

/-- Lex a character buffer from position 0 (fuel can never run out since
every step consumes at least one character). -/
def lexChars (cs : List Char) : List (TokR × Span) := lexF (cs.length + 1) cs 0

/-- Lex a source string, as `Token::lexer(source)` does. -/
def lex (s : String) : List (TokR × Span) := lexChars s.data

/-! ## AST (src/ast.rs)

`Rule` in the source is mutually recursive with `RuleSet`, `AtRule` and
`Stylesheet`; here the record payloads are inlined into one nested
inductive, with `AtRule.block : Option<Stylesheet>` carried as the inner
stylesheet's rule list.  The `Gradient`/`Angle`/`Time`/`Frequency`/
`Resolution` value variants of src/ast.rs are never constructed by the
parser and are not modelled.  The `Value::String` variant is named
`StringV` because `String` is taken in Lean. -/

structure SimpleSelector where
  tag : Option String
  id : Option String
  classes : List String
deriving DecidableEq, Repr

inductive AttributeOperator where
  | Equals | Includes | DashMatch | PrefixMatch | SuffixMatch | SubstringMatch
deriving DecidableEq, Repr

structure AttributeSelector where
  -- Rust field name `attribute` is a Lean keyword.
  attributeName : String
  operator : Option AttributeOperator
  value : Option String
deriving DecidableEq, Repr

structure PseudoClassSelector where
  name : String
  argument : Option String
deriving DecidableEq, Repr

structure PseudoElementSelector where
  name : String
deriving DecidableEq, Repr

inductive Combinator where
  | Descendant | Child | AdjacentSibling | GeneralSibling
deriving DecidableEq, Repr

/-- src/ast.rs `Selector`; `CombinatorSelector`'s fields are inlined into
the `Combinator` constructor. -/
inductive Selector where
  | Simple (s : SimpleSelector)
  | Attribute (a : AttributeSelector)
  | PseudoClass (p : PseudoClassSelector)
  | PseudoElement (p : PseudoElementSelector)
  | Combinator (combinator : Combinator) (selector : Option Selector)

inductive CalcOperator where
  | Add | Subtract | Multiply | Divide
deriving DecidableEq, Repr

inductive CalcTerm where
  | Number (v : Dec) (unit : Option String)
  | Operator (op : CalcOperator)
deriving DecidableEq, Repr

inductive ColorValue where
  | Hex (s : String)
  | Rgb (r g b : Nat)
  | Rgba (r g b : Nat) (a : Dec)
  | Hsl (h s l : Dec)
  | Hsla (h s l a : Dec)
  | Named (s : String)
deriving DecidableEq, Repr

/-- src/ast.rs `Value`; `FunctionValue` and `CalcExpression` are inlined
into the `Function` and `Calc` constructors. -/
inductive Value where
  | Identifier (s : String)
  | ClassSelector (s : String)
  | StringV (s : String)
  | Number (v : Dec)
  | Percentage (v : Dec)
  | Dimension (value : Dec) (unit : String)
  | Url (s : String)
  | Function (name : String) (arguments : List Value)
  | Calc (terms : List CalcTerm)
  | Var (s : String)
  | Color (c : ColorValue)
  | Uri (s : String)

structure Declaration where
  property : String
  value : List Value

/-- src/ast.rs `Rule`, with `RuleSet`/`AtRule` payloads inlined; an
`AtRule` block holds the rules of the inner `Stylesheet`. -/
inductive Rule where
  | RuleSet (selectors : List Selector) (declarations : List Declaration)
            (nested_rules : List Rule)
  | AtRule (name : String) (prelude : List String) (block : Option (List Rule))

structure Stylesheet where
  rules : List Rule

/-! ## Parser state (src/parser.rs lines 9-35)

The `Parser` struct holds the logos lexer, the current item, and the span
of the current item.  Here the not-yet-consumed items form `rest`;
`advance` moves the head of `rest` into `current` and updates `span` only
when a new item exists, exactly as `Parser::advance` does. -/

abbrev ParseError := String × Span

structure PState where
  current : Option TokR
  rest : List (TokR × Span)
  span : Span
deriving DecidableEq, Repr

/-- `Parser::advance`: `current = lexer.next()`, and the span is updated
only if the new current item exists. -/
def PState.advance : PState → PState
  | ⟨_, [], sp⟩ => ⟨none, [], sp⟩
  | ⟨_, (t, s) :: r, _⟩ => ⟨some t, r, s⟩

/-- `Parser::new`: prime `current`/`span` from the first lexer item (logos
reports span `0..0` before any token). -/
def mkParser : List (TokR × Span) → PState
  | [] => ⟨none, [], ⟨0, 0⟩⟩
  | (t, s) :: r => ⟨some t, r, s⟩

/-- Number of unconsumed lexer items of a state. -/
def PState.size (st : PState) : Nat :=
  (if st.current.isSome then 1 else 0) + st.rest.length

/-- Outcome of a parser routine: `Ok` with the mutated parser state,
`Err(ParseError)`, a Rust panic (`unwrap` failure), or exhaustion of the
modelled recursion depth. -/
inductive PResult (α : Type) where
  | ok (st : PState) (a : α)
  | err (e : ParseError)
  | panicked (reason : String)
  | noFuel

/-! ## parse_selectors (src/parser.rs lines 37-158) -/

/-- The string a combinator splices in for the token after `>`/`+`/`~`
(lines 123-128): `Ident` and class tokens contribute their text, `Hash`
re-adds the `#`, anything else contributes the empty string. -/
def selSplice : Tok → String
  | .Ident tag => tag
  | .ClassSelector class0 => class0
  | .Hash id => "#" ++ id
  | _ => ""

/-- Lines 70-87: a pseudo-class / square-bracket / parenthesis capture
starts a new simple selector after a separator, otherwise it is appended
to the classes of the last selector (if that is a `Simple`). -/
def pseudoPush (acc : List Selector) (sep : Bool) (s : String) : List Selector :=
  if sep then acc ++ [Selector.Simple ⟨some s, none, []⟩]
  else
    match acc.getLast? with
    | some (Selector.Simple sel) =>
        acc.dropLast ++ [Selector.Simple ⟨sel.tag, sel.id, sel.classes ++ [s]⟩]
    | _ => acc

/-- Lines 130-139: replace the tag of the last selector (if a `Simple`)
with the combinator splice `"\x7bprev\x7d \x7bc\x7d \x7bnext\x7d"`; with no previous tag the
tag becomes just the splice. -/
def spliceLast (acc : List Selector) (c nextSel : String) : List Selector :=
  match acc.getLast? with
  | some (Selector.Simple sel) =>
      let combined :=
        match sel.tag with
        | some tag => tag ++ " " ++ c ++ " " ++ nextSel
        | none => nextSel
      acc.dropLast ++ [Selector.Simple ⟨some combined, sel.id, sel.classes⟩]
  | some _ => acc
  | none => acc

/-- The `while let Some(token_res) = &self.current` loop of
`parse_selectors`, with accumulator `acc` and the `has_seperator` flag.
Every iteration that continues consumes at least one item, so the fuel
chosen by `parse_selectors` can never run out (the fuel-0 fallback mirrors
a plain loop exit). -/
def selLoopF : Nat → PState → List Selector → Bool → PState × List Selector
  | 0, st, acc, _ => (st, acc)
  | fuel + 1, st, acc, sep =>
    match st.current with
    | none => (st, acc)
    | some (.error _) => (st, acc)
    | some (.ok t) =>
      match t with
      | .CurlyBracketBlock _ => (st, acc)
      | .Hash id =>
          selLoopF fuel st.advance (acc ++ [Selector.Simple ⟨none, some id, []⟩]) false
      | .PseudoClassSelector s => selLoopF fuel st.advance (pseudoPush acc sep s) sep
      | .SquareBracketBlock s => selLoopF fuel st.advance (pseudoPush acc sep s) sep
      | .ParenthesisBlock s => selLoopF fuel st.advance (pseudoPush acc sep s) sep
      | .ClassSelector class0 =>
          selLoopF fuel st.advance (acc ++ [Selector.Simple ⟨some class0, none, []⟩]) false
      | .Ident tag =>
          selLoopF fuel st.advance (acc ++ [Selector.Simple ⟨some tag, none, []⟩]) false
      | .Delim s =>
          -- the `Delim` arms of the Rust match, written as an equality
          -- chain (`Delim` payloads are disjoint from every other arm, so
          -- the order of tests is immaterial)
          if s = "*" then
            selLoopF fuel st.advance (acc ++ [Selector.Simple ⟨some "*", none, []⟩]) false
          else if s = ">" || s = "+" || s = "~" then
            match st.advance.current with
            | some (.ok next) =>
                selLoopF fuel st.advance.advance (spliceLast acc s (selSplice next)) true
            | _ => selLoopF fuel st.advance acc true
          else if s = "," then selLoopF fuel st.advance acc true
          else (st, acc)
      | _ => (st, acc)

/-- `Parser::parse_selectors`: runs the loop from an empty selector list
with `has_seperator = true` and always returns `Ok`. -/
def parse_selectors (st : PState) : PResult (List Selector) :=
  let r := selLoopF (st.size + 1) st [] true
  .ok r.1 r.2

/-! ## parse_function argument loops (src/parser.rs lines 357-513)

The four named-function branches collect arguments with loops that consume
at least one item per iteration; each is given fuel by a wrapper so that
it can never run out. -/

/-- The `rgb`/`rgba` collection loop (lines 362-379): `Number` tokens are
collected as raw text, commas are skipped, a parenthesis block or `)`
delimiter closes, any other token is the fatal invalid-value error, and
end of input simply exits the loop. -/
def rgbLoopF : Nat → PState → List String → PResult (List String)
  | 0, _, _ => .panicked "fuel"
  | fuel + 1, st, vals =>
    match st.current with
    | none => .ok st vals
    | some (.ok (.Number val)) => rgbLoopF fuel st.advance (vals ++ [val])
    | some (.ok (.ParenthesisBlock _)) => .ok st.advance vals
    | some (.ok (.Delim s)) =>
        if s = "," then rgbLoopF fuel st.advance vals
        else if s = ")" then .ok st.advance vals
        else .err ("Invalid rgb/rgba value", st.span)
    | some _ => .err ("Invalid rgb/rgba value", st.span)

def rgbLoop (st : PState) (vals : List String) : PResult (List String) :=
  rgbLoopF (st.size + 1) st vals

/-- The `calc` term loop (lines 403-446); note the quirk that a bare `%`
delimiter becomes a zero-valued percent term, and a `Dimension` whose
numeric prefix does not parse is consumed without contributing a term. -/
def calcLoopF : Nat → PState → List CalcTerm → PResult (List CalcTerm)
  | 0, _, _ => .panicked "fuel"
  | fuel + 1, st, terms =>
    match st.current with
    | none => .ok st terms
    | some (.ok (.Number val)) =>
        match parseF64 val with
        | some v => calcLoopF fuel st.advance (terms ++ [CalcTerm.Number v none])
        | none => .panicked "f64 unwrap"
    | some (.ok (.Delim s)) =>
        if s = "%" then calcLoopF fuel st.advance (terms ++ [CalcTerm.Number ⟨0, 0⟩ (some "%")])
        else if s = "+" then calcLoopF fuel st.advance (terms ++ [CalcTerm.Operator CalcOperator.Add])
        else if s = "-" then calcLoopF fuel st.advance (terms ++ [CalcTerm.Operator CalcOperator.Subtract])
        else if s = "*" then calcLoopF fuel st.advance (terms ++ [CalcTerm.Operator CalcOperator.Multiply])
        else if s = "/" then calcLoopF fuel st.advance (terms ++ [CalcTerm.Operator CalcOperator.Divide])
        else if s = ")" then .ok st.advance terms
        else .err ("Invalid calc term", st.span)
    | some (.ok (.ParenthesisBlock _)) => .ok st.advance terms
    | some (.ok (.Dimension val)) =>
        let pr := splitAtAlpha val
        match parseF64 pr.1 with
        | some v => calcLoopF fuel st.advance (terms ++ [CalcTerm.Number v (some pr.2)])
        | none => calcLoopF fuel st.advance terms
    | some _ => .err ("Invalid calc term", st.span)

def calcLoop (st : PState) (terms : List CalcTerm) : PResult (List CalcTerm) :=
  calcLoopF (st.size + 1) st terms

/-- The `url` concatenation loop (lines 453-471). -/
def urlLoopF : Nat → PState → String → PResult String
  | 0, _, _ => .panicked "fuel"
  | fuel + 1, st, url =>
    match st.current with
    | none => .ok st url
    | some (.ok (.UnquotedUrl val)) => urlLoopF fuel st.advance (url ++ val)
    | some (.ok (.QuotedString val)) => urlLoopF fuel st.advance (url ++ val)
    | some (.ok (.ParenthesisBlock _)) => .ok st.advance url
    | some (.ok (.Delim s)) =>
        if s = ")" then .ok st.advance url
        else .err ("Invalid url value", st.span)
    | some _ => .err ("Invalid url value", st.span)

def urlLoop (st : PState) (url : String) : PResult String :=
  urlLoopF (st.size + 1) st url

/-- The `rect` collection loop (lines 478-495), identical in shape to the
`rgb` loop but with its own error message. -/
def rectLoopF : Nat → PState → List String → PResult (List String)
  | 0, _, _ => .panicked "fuel"
  | fuel + 1, st, vals =>
    match st.current with
    | none => .ok st vals
    | some (.ok (.Number val)) => rectLoopF fuel st.advance (vals ++ [val])
    | some (.ok (.ParenthesisBlock _)) => .ok st.advance vals
    | some (.ok (.Delim s)) =>
        if s = "," then rectLoopF fuel st.advance vals
        else if s = ")" then .ok st.advance vals
        else .err ("Invalid rect value", st.span)
    | some _ => .err ("Invalid rect value", st.span)

def rectLoop (st : PState) (vals : List String) : PResult (List String) :=
  rectLoopF (st.size + 1) st vals

/-! ## parse_declaration_value and parse_function
(src/parser.rs lines 279-355 and 357-546)

These two functions are mutually recursive through the default function
branch; the shared fuel argument decreases on every recursive call. -/

mutual

/-- The value loop of `Parser::parse_declaration_value` (lines 282-352),
with accumulator `vals`. -/
def pdvLoop : Nat → PState → List Value → PResult (List Value)
  | 0, _, _ => .noFuel
  | fuel + 1, st, vals =>
    match st.current with
    | none => .ok st vals
    | some (.ok (.Hash val)) =>
        pdvLoop fuel st.advance (vals ++ [Value.Color (ColorValue.Hex val)])
    | some (.ok (.Ident val)) =>
        pdvLoop fuel st.advance (vals ++ [Value.Identifier val])
    | some (.ok (.Number val)) =>
        match parseF64 val with
        | some v => pdvLoop fuel st.advance (vals ++ [Value.Number v])
        | none => .panicked "f64 unwrap"
    | some (.ok (.Dimension val)) =>
        let pr := splitAtAlpha val
        match parseF64 pr.1 with
        | some v => pdvLoop fuel st.advance (vals ++ [Value.Dimension v pr.2])
        | none => pdvLoop fuel st.advance vals
    | some (.ok (.Function name)) =>
        match parse_function fuel name st.advance with
        | .ok st2 v => pdvLoop fuel st2 (vals ++ [v])
        | .err e => .err e
        | .panicked r => .panicked r
        | .noFuel => .noFuel
    | some (.ok (.QuotedString val)) =>
        pdvLoop fuel st.advance (vals ++ [Value.StringV val])
    | some (.ok (.Percentage val)) =>
        match parseF64 (trimPctEnd val) with
        | some v => pdvLoop fuel st.advance (vals ++ [Value.Percentage v])
        | none => .panicked "f64 unwrap"
    | some (.ok (.CustomProperty val)) =>
        pdvLoop fuel st.advance (vals ++ [Value.Var val])
    | some (.ok .Important) =>
        pdvLoop fuel st.advance (vals ++ [Value.Identifier "!important"])
    | some (.ok (.UnquotedUrl val)) =>
        pdvLoop fuel st.advance (vals ++ [Value.Uri val])
    | some (.ok (.Delim s)) =>
        -- the ";" break, "," skip and "/" arms of the Rust match; every
        -- other delimiter falls to the final break
        if s = ";" then .ok st vals
        else if s = "," then pdvLoop fuel st.advance vals
        else if s = "/" then pdvLoop fuel st.advance (vals ++ [Value.Identifier "/"])
        else .ok st vals
    | some _ => .ok st vals

/-- `Parser::parse_function` (lines 357-546).  The named branches run
their collection loops; `rgb`/`rgba` then checks for 3 or 4 arguments and
converts with `u8`/`f32` parses (whose failures are Rust panics), `rect`
checks for exactly 4, and any other name falls to the default
argument-collection loop. -/
def parse_function : Nat → String → PState → PResult Value
  | 0, _, _ => .noFuel
  | fuel + 1, name, st =>
    match name with
    | "rgb" | "rgba" =>
        match rgbLoop st [] with
        | .ok st2 vals =>
            if vals.length < 3 || vals.length > 4 then
              .err ("Invalid number of arguments for rgb/rgba", st2.span)
            else
              match vals with
              | v0 :: v1 :: v2 :: rest =>
                  match parseU8 v0, parseU8 v1, parseU8 v2 with
                  | some r, some g, some b =>
                      match rest with
                      | [] => .ok st2 (Value.Color (ColorValue.Rgb r g b))
                      | v3 :: _ =>
                          match parseF32 v3 with
                          | some a => .ok st2 (Value.Color (ColorValue.Rgba r g b a))
                          | none => .panicked "f32 unwrap"
                  | _, _, _ => .panicked "u8 unwrap"
              | _ => .panicked "unreachable"
        | .err e => .err e
        | .panicked r => .panicked r
        | .noFuel => .noFuel
    | "calc" =>
        match calcLoop st [] with
        | .ok st2 terms => .ok st2 (Value.Calc terms)
        | .err e => .err e
        | .panicked r => .panicked r
        | .noFuel => .noFuel
    | "url" =>
        match urlLoop st "" with
        | .ok st2 url => .ok st2 (Value.Uri url)
        | .err e => .err e
        | .panicked r => .panicked r
        | .noFuel => .noFuel
    | "rect" =>
        match rectLoop st [] with
        | .ok st2 vals =>
            if vals.length ≠ 4 then
              .err ("Invalid number of arguments for rect", st2.span)
            else
              match vals.mapM parseF64 with
              | some ds => .ok st2 (Value.Function "rect" (ds.map Value.Number))
              | none => .panicked "f64 unwrap"
        | .err e => .err e
        | .panicked r => .panicked r
        | .noFuel => .noFuel
    | _ => fnDefaultLoop fuel name st []

/-- The default-branch loop of `parse_function` (lines 514-544): until a
`ParenthesisBlock("")` token (which no lexer output matches, so in
practice until end of input), each `Ok` token starts a
`parse_declaration_value` run whose results extend the argument list,
followed by one `advance`; a lex-error item is fatal. -/
def fnDefaultLoop : Nat → String → PState → List Value → PResult Value
  | 0, _, _, _ => .noFuel
  | fuel + 1, name, st, args =>
    match st.current with
    | none => .ok st (Value.Function name args)
    | some (.ok (.ParenthesisBlock "")) => .ok st.advance (Value.Function name args)
    | some (.ok _) =>
        match pdvLoop fuel st [] with
        | .ok st2 vals => fnDefaultLoop fuel name st2.advance (args ++ vals)
        | .err e => .err e
        | .panicked r => .panicked r
        | .noFuel => .noFuel
    | some (.error _) => .err ("Invalid function argument", st.span)

end

/-- `Parser::parse_declaration_value` (lines 279-355). -/
def parse_declaration_value (fuel : Nat) (st : PState) : PResult (List Value) :=
  pdvLoop fuel st []

/-! ## parse_rule_set (src/parser.rs lines 160-277) -/

/-- Strip one leading `{` and trailing `}` pair
(lines 171-177: only when the block both starts with `{` and ends
with `}`). -/
def stripBlock (cs : List Char) : List Char :=
  if cs.head? == some '{' && cs.getLast? == some '}' then
    (cs.drop 1).dropLast
  else cs

/-- Block content: strip the brace pair, then trim. -/
def blockContent (block : String) : List Char :=
  trimChars (stripBlock block.data)

mutual

/-- `Parser::parse_rule_set`: parse selectors, require a
`CurlyBracketBlock`, re-lex its stripped and trimmed content with a fresh
parser, and run the block loop.  Returns the selector list, declarations,
and nested rules of the produced `RuleSet`. -/
def parse_rule_set : Nat → PState → PResult (List Selector × List Declaration × List Rule)
  | 0, _ => .noFuel
  | fuel + 1, st =>
    match parse_selectors st with
    | .ok st1 selectors =>
        match st1.current with
        | some (.ok (.CurlyBracketBlock block)) =>
            let st2 := st1.advance
            let bp := mkParser (lexChars (blockContent block))
            match rsBlockLoop fuel bp [] [] with
            | .ok _ dn => .ok st2 (selectors, dn.1, dn.2)
            | .err e => .err e
            | .panicked r => .panicked r
            | .noFuel => .noFuel
        | _ => .err ("Expected '\x7b' after selectors", st1.span)
    | .err e => .err e
    | .panicked r => .panicked r
    | .noFuel => .noFuel

/-- The block loop of `parse_rule_set` (lines 181-264): declarations from
`Ident`/`CustomProperty` followed by `:` value `;` (missing `:` or `;` is
fatal, with the span of the offending item in the re-lexed block),
comments skipped, selector-starting tokens (class, id, parenthesis or
square bracket captures) recursing into `parse_rule_set` onto
`nested_rules`, and anything else skipped. -/
def rsBlockLoop : Nat → PState → List Declaration → List Rule →
    PResult (List Declaration × List Rule)
  | 0, _, _, _ => .noFuel
  | fuel + 1, bp, decls, nested =>
    match bp.current with
    | none => .ok bp (decls, nested)
    | some (.ok (.Ident property)) =>
        let bp1 := bp.advance
        if bp1.current = some (.ok (.Delim ":")) then
          match pdvLoop fuel bp1.advance [] with
          | .ok bp3 value =>
              if bp3.current = some (.ok (.Delim ";")) then
                rsBlockLoop fuel bp3.advance (decls ++ [⟨property, value⟩]) nested
              else .err ("Expected ';' after value", bp3.span)
          | .err e => .err e
          | .panicked r => .panicked r
          | .noFuel => .noFuel
        else .err ("Expected ':' after property", bp1.span)
    | some (.ok (.CustomProperty val)) =>
        let bp1 := bp.advance
        if bp1.current = some (.ok (.Delim ":")) then
          match pdvLoop fuel bp1.advance [] with
          | .ok bp3 value =>
              if bp3.current = some (.ok (.Delim ";")) then
                rsBlockLoop fuel bp3.advance (decls ++ [⟨val, value⟩]) nested
              else .err ("Expected ';' after value", bp3.span)
          | .err e => .err e
          | .panicked r => .panicked r
          | .noFuel => .noFuel
        else .err ("Expected ':' after property", bp1.span)
    | some (.ok (.Comment _)) => rsBlockLoop fuel bp.advance decls nested
    | some (.ok (.ClassSelector _)) | some (.ok (.Hash _))
    | some (.ok (.ParenthesisBlock _)) | some (.ok (.SquareBracketBlock _)) =>
        match parse_rule_set fuel bp with
        | .ok bp2 t =>
            rsBlockLoop fuel bp2 decls (nested ++ [Rule.RuleSet t.1 t.2.1 t.2.2])
        | .err e => .err e
        | .panicked r => .panicked r
        | .noFuel => .noFuel
    | some _ => rsBlockLoop fuel bp.advance decls nested

end

/-! ## parse_at_rule (src/parser.rs lines 596-654) -/

mutual

/-- The prelude loop of `Parser::parse_at_rule`: prelude text is collected
from `Ident`/`Number`/`Dimension`/bracket-capture tokens, a
`CurlyBracketBlock` is re-lexed and scanned for nested rule sets and
at-rules, and exhausting the input without a block is the fatal
missing-block error. -/
def atLoop : Nat → PState → String → List String → PResult Rule
  | 0, _, _, _ => .noFuel
  | fuel + 1, st, name, prelude =>
    match st.current with
    | none => .err ("Expected '\x7b' in @rule", st.span)
    | some (.ok (.CurlyBracketBlock block)) =>
        let bp := mkParser (lexChars (blockContent block))
        match atBlockLoop fuel bp [] with
        | .ok _ blockRules => .ok st.advance (Rule.AtRule name prelude (some blockRules))
        | .err e => .err e
        | .panicked r => .panicked r
        | .noFuel => .noFuel
    | some (.ok (.Ident val)) => atLoop fuel st.advance name (prelude ++ [val])
    | some (.ok (.Number val)) => atLoop fuel st.advance name (prelude ++ [val])
    | some (.ok (.Dimension val)) => atLoop fuel st.advance name (prelude ++ [val])
    | some (.ok (.ParenthesisBlock val)) => atLoop fuel st.advance name (prelude ++ [val])
    | some (.ok (.SquareBracketBlock val)) => atLoop fuel st.advance name (prelude ++ [val])
    | some _ => atLoop fuel st.advance name prelude

/-- The at-rule block loop (lines 617-632): rule sets from
`Ident`/class/id starters, nested at-rules from `AtKeyword` (advancing
past the keyword first), everything else skipped. -/
def atBlockLoop : Nat → PState → List Rule → PResult (List Rule)
  | 0, _, _ => .noFuel
  | fuel + 1, bp, rules =>
    match bp.current with
    | none => .ok bp rules
    | some (.ok (.Ident _)) | some (.ok (.ClassSelector _)) | some (.ok (.Hash _)) =>
        match parse_rule_set fuel bp with
        | .ok bp2 t => atBlockLoop fuel bp2 (rules ++ [Rule.RuleSet t.1 t.2.1 t.2.2])
        | .err e => .err e
        | .panicked r => .panicked r
        | .noFuel => .noFuel
    | some (.ok (.AtKeyword keyword)) =>
        match atLoop fuel bp.advance keyword [] with
        | .ok bp2 r => atBlockLoop fuel bp2 (rules ++ [r])
        | .err e => .err e
        | .panicked r => .panicked r
        | .noFuel => .noFuel
    | some _ => atBlockLoop fuel bp.advance rules

end

/-! ## parse_stylesheet (src/parser.rs lines 548-594) -/

/-- The top-level loop of `Parser::parse_stylesheet`: at-keywords dispatch
to `parse_at_rule` (after advancing past the keyword), selector-starting
tokens dispatch to `parse_rule_set`, and every other item — including lex
errors — is skipped. -/
def styLoop : Nat → PState → List Rule → PResult Stylesheet
  | 0, _, _ => .noFuel
  | fuel + 1, st, rules =>
    match st.current with
    | none => .ok st ⟨rules⟩
    | some (.ok (.AtKeyword keyword)) =>
        match atLoop fuel st.advance keyword [] with
        | .ok st2 r => styLoop fuel st2 (rules ++ [r])
        | .err e => .err e
        | .panicked r => .panicked r
        | .noFuel => .noFuel
    | some (.ok (.Ident _)) | some (.ok (.ClassSelector _)) | some (.ok (.Hash _))
    | some (.ok (.PseudoClassSelector _)) | some (.ok (.SquareBracketBlock _)) =>
        match parse_rule_set fuel st with
        | .ok st2 t => styLoop fuel st2 (rules ++ [Rule.RuleSet t.1 t.2.1 t.2.2])
        | .err e => .err e
        | .panicked r => .panicked r
        | .noFuel => .noFuel
    | some (.ok (.Delim s)) =>
        -- the `Delim("*")` alternative of the rule-set arm, written as an
        -- equality test; every other delimiter is skipped
        if s = "*" then
          match parse_rule_set fuel st with
          | .ok st2 t => styLoop fuel st2 (rules ++ [Rule.RuleSet t.1 t.2.1 t.2.2])
          | .err e => .err e
          | .panicked r => .panicked r
          | .noFuel => .noFuel
        else styLoop fuel st.advance rules
    | some _ => styLoop fuel st.advance rules

/-- `Parser::parse_stylesheet`. -/
def parse_stylesheet (fuel : Nat) (st : PState) : PResult Stylesheet :=
  styLoop fuel st []

/-- `Parser::new(source)` followed by `parse_stylesheet()`. -/
def parse_stylesheet_str (fuel : Nat) (src : String) : PResult Stylesheet :=
  parse_stylesheet fuel (mkParser (lex src))

/-! ## Predicates used by the claims -/

/-- Is a selector of the `Simple` variant? -/
def isSimpleSel : Selector → Bool
  | .Simple _ => true
  | _ => false

/-- The lexer items on which the `parse_selectors` loop continues (all the
explicitly handled arms except the `CurlyBracketBlock` break). -/
def selContinue : TokR → Bool
  | .ok (.Hash _) => true
  | .ok (.PseudoClassSelector _) => true
  | .ok (.SquareBracketBlock _) => true
  | .ok (.ParenthesisBlock _) => true
  | .ok (.ClassSelector _) => true
  | .ok (.Ident _) => true
  | .ok (.Delim s) => s = "*" || s = ">" || s = "+" || s = "~" || s = ","
  | _ => false

/-- Tokens the combinator branch splices meaningfully (lines 123-127):
type, class, and id selectors. -/
def selProducing : Tok → Bool
  | .Ident _ => true
  | .ClassSelector _ => true
  | .Hash _ => true
  | _ => false

mutual

/-- Every selector stored anywhere in a rule (including nested rules and
at-rule blocks) is `Selector::Simple`. -/
def allSimpleRule : Rule → Bool
  | .RuleSet sels _ nested => sels.all isSimpleSel && allSimpleRules nested
  | .AtRule _ _ none => true
  | .AtRule _ _ (some rs) => allSimpleRules rs

def allSimpleRules : List Rule → Bool
  | [] => true
  | r :: rs => allSimpleRule r && allSimpleRules rs

end

def allSimpleSheet (s : Stylesheet) : Bool := allSimpleRules s.rules

/-! ## Basic state lemmas -/

theorem PState.size_advance_le (st : PState) : st.advance.size ≤ st.size := by
  rcases st with ⟨cur, rest, sp⟩
  cases rest <;> cases cur <;> simp [PState.advance, PState.size, Nat.add_comm]

theorem PState.size_advance_lt (st : PState) (h : st.current.isSome) :
    st.advance.size < st.size := by
  rcases st with ⟨cur, rest, sp⟩
  cases rest <;> cases cur <;> simp_all [PState.advance, PState.size]

/-! ## Lemmas about the parse_selectors loop -/


/-- With enough fuel, the `parse_selectors` loop stops only at end of
input or at an item none of its arms continues on, and that item is left
as the current item for the caller. -/
theorem selLoopF_terminator :
    ∀ fuel st acc sep, st.size < fuel →
      ∀ tr, (selLoopF fuel st acc sep).1.current = some tr → selContinue tr = false := by
  intro fuel
  induction fuel with
  | zero => intro st _ _ h; omega
  | succ fuel ih =>
    intro st acc sep hsz tr
    rw [selLoopF]
    split
    · intro h; simp_all
    · next heq => intro h; rw [heq] at h; cases h; rfl
    · next t heq =>
      have hcs : st.current.isSome := by rw [heq]; rfl
      have hlt := PState.size_advance_lt st hcs
      have hlt2 : st.advance.advance.size < st.size :=
        lt_of_le_of_lt (PState.size_advance_le st.advance) hlt
      split
      · intro h; rw [show ((st, acc)).1 = st from rfl, heq] at h; cases h; rfl
      · exact ih _ _ _ (by omega) tr
      · exact ih _ _ _ (by omega) tr
      · exact ih _ _ _ (by omega) tr
      · exact ih _ _ _ (by omega) tr
      · exact ih _ _ _ (by omega) tr
      · exact ih _ _ _ (by omega) tr
      · -- Delim if-chain
        next s =>
        split
        · exact ih _ _ _ (by omega) tr
        · split
          · split
            · exact ih _ _ _ (by omega) tr
            · exact ih _ _ _ (by omega) tr
          · split
            · exact ih _ _ _ (by omega) tr
            · -- terminal delim
              intro h
              rw [show ((st, acc)).1 = st from rfl, heq] at h
              cases h
              simp_all [selContinue]
      · -- default arm
        next hne1 hne2 hne3 hne4 hne5 hne6 hne7 hne8 =>
        intro h
        rw [show ((st, acc)).1 = st from rfl, heq] at h
        cases h
        cases t <;> simp_all [selContinue]

theorem allSimple_pseudoPush (acc : List Selector) (sep : Bool) (s : String)
    (h : ∀ x ∈ acc, isSimpleSel x = true) :
    ∀ x ∈ pseudoPush acc sep s, isSimpleSel x = true := by
  unfold pseudoPush
  split
  · intro x hx
    rcases List.mem_append.mp hx with hx | hx
    · exact h x hx
    · simp at hx; subst hx; rfl
  · split
    · intro x hx
      rcases List.mem_append.mp hx with hx | hx
      · exact h x ((List.dropLast_sublist _).subset hx)
      · simp at hx; subst hx; rfl
    · exact h

theorem allSimple_spliceLast (acc : List Selector) (c nextSel : String)
    (h : ∀ x ∈ acc, isSimpleSel x = true) :
    ∀ x ∈ spliceLast acc c nextSel, isSimpleSel x = true := by
  unfold spliceLast
  split
  · intro x hx
    rcases List.mem_append.mp hx with hx | hx
    · exact h x ((List.dropLast_sublist _).subset hx)
    · simp at hx; subst hx; rfl
  · exact h
  · exact h

theorem allSimple_push (acc : List Selector) (ss : SimpleSelector)
    (h : ∀ x ∈ acc, isSimpleSel x = true) :
    ∀ x ∈ acc ++ [Selector.Simple ss], isSimpleSel x = true := by
  intro x hx
  rcases List.mem_append.mp hx with hx | hx
  · exact h x hx
  · simp at hx; subst hx; rfl

/-- The `parse_selectors` loop only ever appends or rewrites `Simple`
selectors. -/
theorem selLoopF_all_simple :
    ∀ fuel st acc sep, (∀ x ∈ acc, isSimpleSel x = true) →
      ∀ x ∈ (selLoopF fuel st acc sep).2, isSimpleSel x = true := by
  intro fuel
  induction fuel with
  | zero => intro st acc sep h; exact h
  | succ fuel ih =>
    intro st acc sep h
    rw [selLoopF]
    split
    · exact h
    · exact h
    · split
      · exact h
      · exact ih _ _ _ (allSimple_push _ _ h)
      · exact ih _ _ _ (allSimple_pseudoPush _ _ _ h)
      · exact ih _ _ _ (allSimple_pseudoPush _ _ _ h)
      · exact ih _ _ _ (allSimple_pseudoPush _ _ _ h)
      · exact ih _ _ _ (allSimple_push _ _ h)
      · exact ih _ _ _ (allSimple_push _ _ h)
      · split
        · exact ih _ _ _ (allSimple_push _ _ h)
        · split
          · split
            · exact ih _ _ _ (allSimple_spliceLast _ _ _ h)
            · exact ih _ _ _ h
          · split
            · exact ih _ _ _ h
            · exact h
      · exact h

/-- C9 helper: `parse_selectors` always succeeds, and the item it stopped
on (if any) is one that none of its arms consumes. -/
theorem parse_selectors_ok (st : PState) :
    ∃ st2 sels, parse_selectors st = .ok st2 sels ∧
      (∀ tr, st2.current = some tr → selContinue tr = false) ∧
      (∀ x ∈ sels, isSimpleSel x = true) := by
  refine ⟨(selLoopF (st.size + 1) st [] true).1, (selLoopF (st.size + 1) st [] true).2,
    rfl, ?_, ?_⟩
  · exact selLoopF_terminator (st.size + 1) st [] true (by omega)
  · exact selLoopF_all_simple (st.size + 1) st [] true (by intro x hx; cases hx)

/-- One step of the `parse_selectors` loop at a combinator delimiter
(lines 112-144): with a previous `Simple` selector carrying a tag, the
combinator and the following item are both consumed and the tag is
replaced by the textual splice; no new selector is pushed. -/
theorem selLoopF_combinator_step (fuel : Nat) (st : PState) (acc : List Selector)
    (sep : Bool) (s : String) (nxt : Tok) (p : String) (sid : Option String)
    (cls : List String)
    (hc : s = ">" ∨ s = "+" ∨ s = "~")
    (hcur : st.current = some (.ok (.Delim s)))
    (hnxt : st.advance.current = some (.ok nxt))
    (hlast : acc.getLast? = some (Selector.Simple ⟨some p, sid, cls⟩)) :
    selLoopF (fuel + 1) st acc sep =
      selLoopF fuel st.advance.advance
        (acc.dropLast ++
          [Selector.Simple ⟨some (p ++ " " ++ s ++ " " ++ selSplice nxt), sid, cls⟩]) true := by
  rw [selLoopF, hcur]
  have hstar : (s = "*") = False := by
    rcases hc with h | h | h <;> subst h <;> simp
  have hcomb : (s = ">" || s = "+" || s = "~") = true := by
    rcases hc with h | h | h <;> subst h <;> simp
  simp only [hstar, if_false, hcomb, if_true, hnxt]
  rw [spliceLast, hlast]

theorem allSimpleRules_append (l1 l2 : List Rule) :
    allSimpleRules (l1 ++ l2) = (allSimpleRules l1 && allSimpleRules l2) := by
  induction l1 with
  | nil => simp [allSimpleRules]
  | cons r rs ih => simp [allSimpleRules, ih, Bool.and_assoc]

/-- Joint invariant of `parse_rule_set` and its block loop: on success the
selectors are all `Simple` and every rule in `nested_rules` carries only
`Simple` selectors. -/
theorem rsFamily_simple :
    ∀ fuel : Nat,
      (∀ st st2 t, parse_rule_set fuel st = .ok st2 t →
        (∀ x ∈ t.1, isSimpleSel x = true) ∧ allSimpleRules t.2.2 = true) ∧
      (∀ bp decls nested bp2 dn, rsBlockLoop fuel bp decls nested = .ok bp2 dn →
        allSimpleRules nested = true → allSimpleRules dn.2 = true) := by
  intro fuel
  induction fuel with
  | zero =>
    constructor
    · intro st st2 t h; rw [parse_rule_set] at h; cases h
    · intro bp decls nested bp2 dn h _; rw [rsBlockLoop] at h; cases h
  | succ fuel ih =>
    obtain ⟨ihR, ihB⟩ := ih
    constructor
    · intro st st2 t h
      rw [parse_rule_set] at h
      simp only [parse_selectors] at h
      split at h
      · next block heq =>
        split at h
        · next bpX dn heq2 =>
          cases h
          constructor
          · exact selLoopF_all_simple _ _ _ _ (by intro x hx; cases hx)
          · exact ihB _ _ _ _ _ heq2 rfl
        · cases h
        · cases h
        · cases h
      · cases h
    · intro bp decls nested bp2 dn h hn
      rw [rsBlockLoop] at h
      split at h
      · cases h; exact hn
      · -- Ident declaration arm
        dsimp only [] at h
        split at h
        · split at h
          · split at h
            · exact ihB _ _ _ _ _ h hn
            · cases h
          · cases h
          · cases h
          · cases h
        · cases h
      · -- CustomProperty declaration arm
        dsimp only [] at h
        split at h
        · split at h
          · split at h
            · exact ihB _ _ _ _ _ h hn
            · cases h
          · cases h
          · cases h
          · cases h
        · cases h
      · -- Comment skip
        exact ihB _ _ _ _ _ h hn
      · -- ClassSelector nested rule
        split at h
        · next bpY t2 heq2 =>
          have hT := ihR _ _ _ heq2
          refine ihB _ _ _ _ _ h ?_
          have h1 : t2.1.all isSimpleSel = true := List.all_eq_true.mpr hT.1
          rw [allSimpleRules_append, hn]
          simp [allSimpleRules, allSimpleRule, h1, hT.2]
        · cases h
        · cases h
        · cases h
      · -- Hash nested rule
        split at h
        · next bpY t2 heq2 =>
          have hT := ihR _ _ _ heq2
          refine ihB _ _ _ _ _ h ?_
          have h1 : t2.1.all isSimpleSel = true := List.all_eq_true.mpr hT.1
          rw [allSimpleRules_append, hn]
          simp [allSimpleRules, allSimpleRule, h1, hT.2]
        · cases h
        · cases h
        · cases h
      · -- ParenthesisBlock nested rule
        split at h
        · next bpY t2 heq2 =>
          have hT := ihR _ _ _ heq2
          refine ihB _ _ _ _ _ h ?_
          have h1 : t2.1.all isSimpleSel = true := List.all_eq_true.mpr hT.1
          rw [allSimpleRules_append, hn]
          simp [allSimpleRules, allSimpleRule, h1, hT.2]
        · cases h
        · cases h
        · cases h
      · -- SquareBracketBlock nested rule
        split at h
        · next bpY t2 heq2 =>
          have hT := ihR _ _ _ heq2
          refine ihB _ _ _ _ _ h ?_
          have h1 : t2.1.all isSimpleSel = true := List.all_eq_true.mpr hT.1
          rw [allSimpleRules_append, hn]
          simp [allSimpleRules, allSimpleRule, h1, hT.2]
        · cases h
        · cases h
        · cases h
      · -- default skip
        exact ihB _ _ _ _ _ h hn

/-- Joint invariant of `parse_at_rule` and its block loop: a successful
at-rule parse always carries `Some` block, and every rule inside it
carries only `Simple` selectors. -/
theorem atFamily_simple :
    ∀ fuel : Nat,
      (∀ st name prel st2 r, atLoop fuel st name prel = .ok st2 r →
        allSimpleRule r = true ∧ ∃ n p rs, r = Rule.AtRule n p (some rs)) ∧
      (∀ bp rules bp2 out, atBlockLoop fuel bp rules = .ok bp2 out →
        allSimpleRules rules = true → allSimpleRules out = true) := by
  intro fuel
  induction fuel with
  | zero =>
    constructor
    · intro st name prel st2 r h; rw [atLoop] at h; cases h
    · intro bp rules bp2 out h _; rw [atBlockLoop] at h; cases h
  | succ fuel ih =>
    obtain ⟨ihA, ihB⟩ := ih
    constructor
    · intro st name prel st2 r h
      rw [atLoop] at h
      split at h
      · cases h
      · -- CurlyBracketBlock arm
        dsimp only [] at h
        split at h
        · next bpX blockRules heq2 =>
          cases h
          constructor
          · simp only [allSimpleRule]
            exact ihB _ _ _ _ heq2 rfl
          · exact ⟨_, _, _, rfl⟩
        · cases h
        · cases h
        · cases h
      · exact ihA _ _ _ _ _ h
      · exact ihA _ _ _ _ _ h
      · exact ihA _ _ _ _ _ h
      · exact ihA _ _ _ _ _ h
      · exact ihA _ _ _ _ _ h
      · exact ihA _ _ _ _ _ h
    · intro bp rules bp2 out h hr
      rw [atBlockLoop] at h
      split at h
      · cases h; exact hr
      · -- Ident rule set
        split at h
        · next bpY t2 heq2 =>
          have hT := (rsFamily_simple fuel).1 _ _ _ heq2
          refine ihB _ _ _ _ h ?_
          have h1 : t2.1.all isSimpleSel = true := List.all_eq_true.mpr hT.1
          rw [allSimpleRules_append, hr]
          simp [allSimpleRules, allSimpleRule, h1, hT.2]
        · cases h
        · cases h
        · cases h
      · -- ClassSelector rule set
        split at h
        · next bpY t2 heq2 =>
          have hT := (rsFamily_simple fuel).1 _ _ _ heq2
          refine ihB _ _ _ _ h ?_
          have h1 : t2.1.all isSimpleSel = true := List.all_eq_true.mpr hT.1
          rw [allSimpleRules_append, hr]
          simp [allSimpleRules, allSimpleRule, h1, hT.2]
        · cases h
        · cases h
        · cases h
      · -- Hash rule set
        split at h
        · next bpY t2 heq2 =>
          have hT := (rsFamily_simple fuel).1 _ _ _ heq2
          refine ihB _ _ _ _ h ?_
          have h1 : t2.1.all isSimpleSel = true := List.all_eq_true.mpr hT.1
          rw [allSimpleRules_append, hr]
          simp [allSimpleRules, allSimpleRule, h1, hT.2]
        · cases h
        · cases h
        · cases h
      · -- nested at-rule
        split at h
        · next st3 r3 heq2 =>
          have hA := ihA _ _ _ _ _ heq2
          refine ihB _ _ _ _ h ?_
          rw [allSimpleRules_append, hr]
          simp [allSimpleRules, hA.1]
        · cases h
        · cases h
        · cases h
      · exact ihB _ _ _ _ h hr

/-- Top-level loop invariant: a successful `parse_stylesheet` only returns
stylesheets whose selectors are all `Simple`. -/
theorem styLoop_simple :
    ∀ fuel st rules st2 sheet, styLoop fuel st rules = .ok st2 sheet →
      allSimpleRules rules = true → allSimpleSheet sheet = true := by
  intro fuel
  induction fuel with
  | zero => intro st rules st2 sheet h _; rw [styLoop] at h; cases h
  | succ fuel ih =>
    intro st rules st2 sheet h hr
    rw [styLoop] at h
    split at h
    · cases h; exact hr
    · -- at-rule arm
      split at h
      · next st3 r3 heq2 =>
        have hA := (atFamily_simple fuel).1 _ _ _ _ _ heq2
        refine ih _ _ _ _ h ?_
        rw [allSimpleRules_append, hr]
        simp [allSimpleRules, hA.1]
      · cases h
      · cases h
      · cases h
    · -- Ident rule set
      split at h
      · next st3 t3 heq2 =>
        have hT := (rsFamily_simple fuel).1 _ _ _ heq2
        refine ih _ _ _ _ h ?_
        have h1 : t3.1.all isSimpleSel = true := List.all_eq_true.mpr hT.1
        rw [allSimpleRules_append, hr]
        simp [allSimpleRules, allSimpleRule, h1, hT.2]
      · cases h
      · cases h
      · cases h
    · -- ClassSelector rule set
      split at h
      · next st3 t3 heq2 =>
        have hT := (rsFamily_simple fuel).1 _ _ _ heq2
        refine ih _ _ _ _ h ?_
        have h1 : t3.1.all isSimpleSel = true := List.all_eq_true.mpr hT.1
        rw [allSimpleRules_append, hr]
        simp [allSimpleRules, allSimpleRule, h1, hT.2]
      · cases h
      · cases h
      · cases h
    · -- Hash rule set
      split at h
      · next st3 t3 heq2 =>
        have hT := (rsFamily_simple fuel).1 _ _ _ heq2
        refine ih _ _ _ _ h ?_
        have h1 : t3.1.all isSimpleSel = true := List.all_eq_true.mpr hT.1
        rw [allSimpleRules_append, hr]
        simp [allSimpleRules, allSimpleRule, h1, hT.2]
      · cases h
      · cases h
      · cases h
    · -- PseudoClassSelector rule set
      split at h
      · next st3 t3 heq2 =>
        have hT := (rsFamily_simple fuel).1 _ _ _ heq2
        refine ih _ _ _ _ h ?_
        have h1 : t3.1.all isSimpleSel = true := List.all_eq_true.mpr hT.1
        rw [allSimpleRules_append, hr]
        simp [allSimpleRules, allSimpleRule, h1, hT.2]
      · cases h
      · cases h
      · cases h
    · -- SquareBracketBlock rule set
      split at h
      · next st3 t3 heq2 =>
        have hT := (rsFamily_simple fuel).1 _ _ _ heq2
        refine ih _ _ _ _ h ?_
        have h1 : t3.1.all isSimpleSel = true := List.all_eq_true.mpr hT.1
        rw [allSimpleRules_append, hr]
        simp [allSimpleRules, allSimpleRule, h1, hT.2]
      · cases h
      · cases h
      · cases h
    · -- Delim arm
      split at h
      · -- the universal selector
        split at h
        · next st3 t3 heq2 =>
          have hT := (rsFamily_simple fuel).1 _ _ _ heq2
          refine ih _ _ _ _ h ?_
          have h1 : t3.1.all isSimpleSel = true := List.all_eq_true.mpr hT.1
          rw [allSimpleRules_append, hr]
          simp [allSimpleRules, allSimpleRule, h1, hT.2]
        · cases h
        · cases h
        · cases h
      · exact ih _ _ _ _ h hr
    · exact ih _ _ _ _ h hr

/-- The block-loop tokens that trigger a recursive `parse_rule_set`
(lines 254-257): class, id, and the two bracket-capture tokens. -/
def blockSelStart : Tok → Bool
  | .ClassSelector _ => true
  | .Hash _ => true
  | .ParenthesisBlock _ => true
  | .SquareBracketBlock _ => true
  | _ => false

/-- The items `parse_stylesheet` can start a rule from: an at-keyword or
a selector-starting token (lines 554-565). -/
def topStart : TokR → Bool
  | .ok (.AtKeyword _) => true
  | .ok (.Ident _) => true
  | .ok (.ClassSelector _) => true
  | .ok (.Hash _) => true
  | .ok (.PseudoClassSelector _) => true
  | .ok (.SquareBracketBlock _) => true
  | .ok (.Delim s) => s = "*"
  | _ => false

/-- The items the rule-set block loop handles specially (lines 183-260):
declaration starters, comments, and nested-rule starters; everything else
is skipped. -/
def blockHandled : TokR → Bool
  | .ok (.Ident _) => true
  | .ok (.CustomProperty _) => true
  | .ok (.Comment _) => true
  | .ok (.ClassSelector _) => true
  | .ok (.Hash _) => true
  | .ok (.ParenthesisBlock _) => true
  | .ok (.SquareBracketBlock _) => true
  | _ => false

/-- The items the `rgb`/`rgba` argument loop accepts (lines 363-374). -/
def rgbArgTok : TokR → Bool
  | .ok (.Number _) => true
  | .ok (.ParenthesisBlock _) => true
  | .ok (.Delim s) => s = "," || s = ")"
  | _ => false

/-- One step of the rule-set block loop at a nested-rule starter: the
recursive `parse_rule_set` result is appended to `nested_rules` and the
loop continues, interleaved with the declarations accumulated so far. -/
theorem rsBlockLoop_nested_step (fuel : Nat) (bp : PState)
    (decls : List Declaration) (nested : List Rule) (t : Tok) (bp2 : PState)
    (trip : List Selector × List Declaration × List Rule)
    (hcur : bp.current = some (.ok t)) (hsel : blockSelStart t = true)
    (hrs : parse_rule_set fuel bp = .ok bp2 trip) :
    rsBlockLoop (fuel + 1) bp decls nested =
      rsBlockLoop fuel bp2 decls (nested ++ [Rule.RuleSet trip.1 trip.2.1 trip.2.2]) := by
  rw [rsBlockLoop, hcur]
  cases t <;> simp [blockSelStart] at hsel <;> rw [hrs]

/-- Top-level leniency: any item `parse_stylesheet` cannot start a rule
from is skipped by advancing the cursor. -/
theorem styLoop_skip (fuel : Nat) (st : PState) (rules : List Rule) (tr : TokR)
    (hcur : st.current = some tr) (hns : topStart tr = false) :
    styLoop (fuel + 1) st rules = styLoop fuel st.advance rules := by
  rw [styLoop, hcur]
  cases tr with
  | error e => rfl
  | ok t =>
    cases t <;> simp_all [topStart]

/-- Block-level leniency: any item the rule-set block loop does not handle
is likewise skipped by advancing the cursor, not a fatal error. -/
theorem rsBlockLoop_skip (fuel : Nat) (bp : PState) (decls : List Declaration)
    (nested : List Rule) (tr : TokR)
    (hcur : bp.current = some tr) (hns : blockHandled tr = false) :
    rsBlockLoop (fuel + 1) bp decls nested = rsBlockLoop fuel bp.advance decls nested := by
  rw [rsBlockLoop, hcur]
  cases tr with
  | error e => rfl
  | ok t =>
    cases t <;> simp_all [blockHandled]

/-- Function-argument strictness: inside the `rgb`/`rgba` argument loop,
an item that is not a number, separator or closer is a fatal error. -/
theorem rgbLoopF_fatal (fuel : Nat) (st : PState) (vals : List String) (tr : TokR)
    (hcur : st.current = some tr) (hns : rgbArgTok tr = false) :
    rgbLoopF (fuel + 1) st vals = .err ("Invalid rgb/rgba value", st.span) := by
  rw [rgbLoopF, hcur]
  cases tr with
  | error e => rfl
  | ok t =>
    cases t <;> simp_all [rgbArgTok]

/-! ## Claims -/

/-- C1: combinator delimiters (`>`, `+`, `~`) between simple selectors are
folded textually: the loop consumes the combinator and the next
selector-producing token and rewrites the previous `Simple` selector's tag
to the splice `"\x7bprev\x7d \x7bcombinator\x7d \x7bnext\x7d"`, pushing no new selector and
never constructing a `Selector.Combinator` node (every produced selector
is `Simple`); in particular the sample input yields exactly one `Simple`
selector whose tag is the literal spliced string. -/
theorem claim1_combinator_folding :
    (∀ fuel st acc sep s nxt p sid cls,
      (s = ">" ∨ s = "+" ∨ s = "~") →
      st.current = some (.ok (.Delim s)) →
      st.advance.current = some (.ok nxt) →
      selProducing nxt = true →
      acc.getLast? = some (Selector.Simple ⟨some p, sid, cls⟩) →
      selLoopF (fuel + 1) st acc sep =
        selLoopF fuel st.advance.advance
          (acc.dropLast ++
            [Selector.Simple ⟨some (p ++ " " ++ s ++ " " ++ selSplice nxt), sid, cls⟩]) true) ∧
    (∀ st st2 sels, parse_selectors st = .ok st2 sels → ∀ x ∈ sels, isSimpleSel x = true) ∧
    (∃ stF, parse_stylesheet_str 300 "body > .container + .container \x7b margin-top: 1rem; \x7d" =
      .ok stF ⟨[Rule.RuleSet
        [Selector.Simple ⟨some "body > .container + .container", none, []⟩]
        [⟨"margin-top", [Value.Dimension ⟨1, 0⟩ "rem"]⟩] []]⟩) := by
  refine ⟨?_, ?_, ⟨_, rfl⟩⟩
  · intro fuel st acc sep s nxt p sid cls hc hcur hnxt _ hlast
    exact selLoopF_combinator_step fuel st acc sep s nxt p sid cls hc hcur hnxt hlast
  · intro st st2 sels h
    simp only [parse_selectors] at h
    cases h
    exact selLoopF_all_simple _ _ _ _ (by intro x hx; cases hx)

/-- C1 witness: the splice step applied at a concrete two-item state,
rewriting tag `a` to `a > b`. -/
theorem claim1_witness :
    selLoopF 2 ⟨some (.ok (Tok.Delim ">")), [(.ok (Tok.Ident "b"), ⟨2, 3⟩)], ⟨0, 1⟩⟩
        [Selector.Simple ⟨some "a", none, []⟩] false =
      selLoopF 1
        (PState.advance (PState.advance ⟨some (.ok (Tok.Delim ">")), [(.ok (Tok.Ident "b"), ⟨2, 3⟩)], ⟨0, 1⟩⟩))
        ([] ++ [Selector.Simple ⟨some ("a" ++ " " ++ ">" ++ " " ++ selSplice (Tok.Ident "b")), none, []⟩]) true :=
  claim1_combinator_folding.1 1 _ [Selector.Simple ⟨some "a", none, []⟩] false ">"
    (Tok.Ident "b") "a" none [] (Or.inl rfl) rfl rfl rfl rfl

/-- C2: every `Selector` value anywhere in a stylesheet returned by
`parse_stylesheet` — in rule sets, nested rules, and at-rule blocks — is
of the `Simple` variant; the parser never constructs the `Attribute`,
`PseudoClass`, `PseudoElement` or `Combinator` variants. -/
theorem claim2_only_simple_selectors (fuel : Nat) (st st2 : PState) (sheet : Stylesheet)
    (h : parse_stylesheet fuel st = .ok st2 sheet) : allSimpleSheet sheet = true :=
  styLoop_simple fuel st [] st2 sheet h rfl

/-- C2 witness: applied to the parse of a small concrete stylesheet. -/
theorem claim2_witness :
    allSimpleSheet ⟨[Rule.RuleSet [Selector.Simple ⟨some "a", none, []⟩]
      [⟨"b", [Value.Identifier "c"]⟩] []]⟩ = true :=
  claim2_only_simple_selectors 300 (mkParser (lex "a \x7b b : c ; \x7d"))
    ⟨none, [], ⟨2, 13⟩⟩ _ (by rfl)

/-- C3: inside a rule-set block, a selector-starting token (class, id, or
bracket-capture) triggers a recursive `parse_rule_set` whose result is
appended to `nested_rules`; and the sample nested input yields an outer
rule set with exactly one declaration and exactly one nested rule set
holding the `width: 100%` declaration. -/
theorem claim3_nested_rule_sets :
    (∀ fuel bp decls nested t bp2 trip,
      bp.current = some (.ok t) → blockSelStart t = true →
      parse_rule_set fuel bp = .ok bp2 trip →
      rsBlockLoop (fuel + 1) bp decls nested =
        rsBlockLoop fuel bp2 decls (nested ++ [Rule.RuleSet trip.1 trip.2.1 trip.2.2])) ∧
    (∃ stF, parse_stylesheet_str 300 "body \x7b color: #fff; .container \x7b width: 100%; \x7d \x7d" =
      .ok stF ⟨[Rule.RuleSet [Selector.Simple ⟨some "body", none, []⟩]
        [⟨"color", [Value.Color (ColorValue.Hex "fff")]⟩]
        [Rule.RuleSet [Selector.Simple ⟨some ".container", none, []⟩]
          [⟨"width", [Value.Percentage ⟨100, 0⟩]⟩] []]]⟩) :=
  ⟨rsBlockLoop_nested_step, ⟨_, rfl⟩⟩

/-- C3 witness: the nested-rule step applied at a concrete block state
starting with a class selector. -/
theorem claim3_witness :
    rsBlockLoop 6 (mkParser (lex ".c \x7b\x7d")) [] [] =
      rsBlockLoop 5 ⟨none, [], ⟨3, 5⟩⟩ []
        ([] ++ [Rule.RuleSet [Selector.Simple ⟨some ".c", none, []⟩] [] []]) :=
  claim3_nested_rule_sets.1 5 (mkParser (lex ".c \x7b\x7d")) [] [] (Tok.ClassSelector ".c")
    ⟨none, [], ⟨3, 5⟩⟩ ([Selector.Simple ⟨some ".c", none, []⟩], [], []) rfl rfl (by rfl)

/-- C4 counterexample: the claim asserts that a token that cannot start a
rule is fatal inside a block, but `"body \x7b 4 ; \x7d"` — whose block content
re-lexes to a `Number` item that cannot start a rule or declaration —
parses successfully with the item silently skipped, producing a rule set
with no declarations. -/
theorem claim4_counterexample :
    ∃ stF, parse_stylesheet_str 300 "body \x7b 4 ; \x7d" =
      .ok stF ⟨[Rule.RuleSet [Selector.Simple ⟨some "body", none, []⟩] [] []]⟩ :=
  ⟨_, rfl⟩

/-- C4 amended: at the top level any item that cannot start a rule is
skipped by advancing the cursor (never a fatal error); inside a rule-set
block, unrecognized items are likewise skipped, not fatal; only inside
function-argument parsing (here the `rgb`/`rgba` loop) does an unexpected
item propagate as a fatal error. -/
theorem claim4_lenient_strict_asymmetry :
    (∀ fuel st rules tr, st.current = some tr → topStart tr = false →
      styLoop (fuel + 1) st rules = styLoop fuel st.advance rules) ∧
    (∀ fuel bp decls nested tr, bp.current = some tr → blockHandled tr = false →
      rsBlockLoop (fuel + 1) bp decls nested = rsBlockLoop fuel bp.advance decls nested) ∧
    (∀ fuel st vals tr, st.current = some tr → rgbArgTok tr = false →
      rgbLoopF (fuel + 1) st vals = .err ("Invalid rgb/rgba value", st.span)) :=
  ⟨styLoop_skip, rsBlockLoop_skip, rgbLoopF_fatal⟩

/-- C4 witness: the three behaviours at concrete one-item states holding a
`QuotedString` item, which none of the three contexts starts from. -/
theorem claim4_witness :
    (styLoop 2 ⟨some (.ok (Tok.QuotedString "x")), [], ⟨0, 3⟩⟩ [] =
      styLoop 1 (PState.advance ⟨some (.ok (Tok.QuotedString "x")), [], ⟨0, 3⟩⟩) []) ∧
    (rsBlockLoop 2 ⟨some (.ok (Tok.QuotedString "x")), [], ⟨0, 3⟩⟩ [] [] =
      rsBlockLoop 1 (PState.advance ⟨some (.ok (Tok.QuotedString "x")), [], ⟨0, 3⟩⟩) [] []) ∧
    (rgbLoopF 2 ⟨some (.ok (Tok.QuotedString "x")), [], ⟨0, 3⟩⟩ [] =
      .err ("Invalid rgb/rgba value", ⟨0, 3⟩)) :=
  ⟨claim4_lenient_strict_asymmetry.1 1 _ [] _ rfl rfl,
   claim4_lenient_strict_asymmetry.2.1 1 _ [] [] _ rfl rfl,
   claim4_lenient_strict_asymmetry.2.2 1 _ [] _ rfl rfl⟩

/-- C7: the malformed declaration `"body \x7b color #fff; \x7d"` (missing `:`)
produces the fatal missing-colon error — an `Err`, never a panic — whose
span `6..10` is that of the item immediately after `color` in the
re-lexed block content `"color #fff;"` (where `color` occupies `0..5`). -/
theorem claim7_missing_colon_error :
    parse_stylesheet_str 300 "body \x7b color #fff; \x7d" =
      .err ("Expected ':' after property", ⟨6, 10⟩) := rfl

/-- C8: `parse_at_rule` can only succeed by finding a
`CurlyBracketBlock`, so every successful result carries `block = Some`;
reaching end of input without a block — e.g. the semicolon-terminated
`"@import url(x.css);"` — is the fatal missing-block error. -/
theorem claim8_atrule_requires_block :
    (∀ fuel st name prel st2 r, atLoop fuel st name prel = .ok st2 r →
      ∃ n p rs, r = Rule.AtRule n p (some rs)) ∧
    parse_stylesheet_str 300 "@import url(x.css);" =
      .err ("Expected '\x7b' in @rule", ⟨18, 19⟩) :=
  ⟨fun fuel st name prel st2 r h => ((atFamily_simple fuel).1 st name prel st2 r h).2, rfl⟩

/-- C8 witness: a successful concrete at-rule parse indeed carries a
`Some` block. -/
theorem claim8_witness :
    ∃ n p rs, Rule.AtRule "media" ["x"] (some ([] : List Rule)) = Rule.AtRule n p (some rs) :=
  claim8_atrule_requires_block.1 50 (mkParser (lex "x \x7b\x7d")) "media" []
    ⟨none, [], ⟨2, 4⟩⟩ _ (by rfl)

/-- C9: `parse_selectors` is infallible — it returns `Ok` with some
(possibly empty) selector list on every state — and the item it stopped on
(when any remains) is one that no arm of its loop consumes, left as the
current item for the caller. -/
theorem claim9_selectors_infallible (st : PState) :
    ∃ st2 sels, parse_selectors st = .ok st2 sels ∧
      (∀ tr, st2.current = some tr → selContinue tr = false) := by
  obtain ⟨st2, sels, h1, h2, _⟩ := parse_selectors_ok st
  exact ⟨st2, sels, h1, h2⟩

/-- C9 witness: the theorem applied at a concrete state stopping at a
curly-bracket item. -/
theorem claim9_witness :
    ∃ st2 sels, parse_selectors (mkParser (lex "a \x7b\x7d")) = .ok st2 sels ∧
      (∀ tr, st2.current = some tr → selContinue tr = false) :=
  claim9_selectors_infallible (mkParser (lex "a \x7b\x7d"))

/-- C10: a `Dimension` token whose numeric prefix (the text before the
first alphabetic character) does not parse as an `f64` is consumed and
silently dropped, both in `parse_declaration_value` and in the `calc`
branch of `parse_function`: nothing is appended and no error is raised,
so the surrounding parse continues with that datum missing. -/
theorem claim10_bad_dimension_dropped :
    (∀ fuel st vals val, st.current = some (.ok (Tok.Dimension val)) →
      parseF64 (splitAtAlpha val).1 = none →
      pdvLoop (fuel + 1) st vals = pdvLoop fuel st.advance vals) ∧
    (∀ fuel st terms val, st.current = some (.ok (Tok.Dimension val)) →
      parseF64 (splitAtAlpha val).1 = none →
      calcLoopF (fuel + 1) st terms = calcLoopF fuel st.advance terms) := by
  constructor
  · intro fuel st vals val hcur hbad
    rw [pdvLoop, hcur]
    simp only [hbad]
  · intro fuel st terms val hcur hbad
    rw [calcLoopF, hcur]
    simp only [hbad]

/-- C10 witness: the drop applied to the unparsable dimension token
`"1.2.3px"` in both loops. -/
theorem claim10_witness :
    (pdvLoop 2 ⟨some (.ok (Tok.Dimension "1.2.3px")), [], ⟨0, 7⟩⟩ [] =
      pdvLoop 1 (PState.advance ⟨some (.ok (Tok.Dimension "1.2.3px")), [], ⟨0, 7⟩⟩) []) ∧
    (calcLoopF 2 ⟨some (.ok (Tok.Dimension "1.2.3px")), [], ⟨0, 7⟩⟩ [] =
      calcLoopF 1 (PState.advance ⟨some (.ok (Tok.Dimension "1.2.3px")), [], ⟨0, 7⟩⟩) []) :=
  ⟨claim10_bad_dimension_dropped.1 1 _ [] "1.2.3px" rfl (by rfl),
   claim10_bad_dimension_dropped.2 1 _ [] "1.2.3px" rfl (by rfl)⟩

/-- C5: with the argument-collection loop completing normally,
`parse_function` returns the `InvalidArity` error exactly when the
collected `Number`-token count is wrong — for `rgb`/`rgba` when it is
neither 3 nor 4 (3 yielding `Rgb`, 4 yielding `Rgba`, given the `u8`/`f32`
conversions succeed), and for `rect` when it is not 4 (4 yielding the
generic `Function` value over the parsed numbers).  `rgba` behaves
identically to `rgb`. -/
theorem claim5_invalid_arity :
    (∀ fuel st st2 vals, rgbLoop st [] = .ok st2 vals →
      ((parse_function (fuel + 1) "rgb" st =
          .err ("Invalid number of arguments for rgb/rgba", st2.span)) ↔
        (vals.length ≠ 3 ∧ vals.length ≠ 4)) ∧
      parse_function (fuel + 1) "rgba" st = parse_function (fuel + 1) "rgb" st ∧
      (∀ v0 v1 v2 r g b, vals = [v0, v1, v2] → parseU8 v0 = some r →
        parseU8 v1 = some g → parseU8 v2 = some b →
        parse_function (fuel + 1) "rgb" st = .ok st2 (Value.Color (ColorValue.Rgb r g b))) ∧
      (∀ v0 v1 v2 v3 r g b a, vals = [v0, v1, v2, v3] → parseU8 v0 = some r →
        parseU8 v1 = some g → parseU8 v2 = some b → parseF32 v3 = some a →
        parse_function (fuel + 1) "rgb" st =
          .ok st2 (Value.Color (ColorValue.Rgba r g b a)))) ∧
    (∀ fuel st st2 vals, rectLoop st [] = .ok st2 vals →
      ((parse_function (fuel + 1) "rect" st =
          .err ("Invalid number of arguments for rect", st2.span)) ↔
        vals.length ≠ 4) ∧
      (∀ ds, vals.length = 4 → vals.mapM parseF64 = some ds →
        parse_function (fuel + 1) "rect" st =
          .ok st2 (Value.Function "rect" (ds.map Value.Number)))) := by
  constructor
  · intro fuel st st2 vals h
    have hbody : parse_function (fuel + 1) "rgb" st =
        (if vals.length < 3 || vals.length > 4 then
          PResult.err ("Invalid number of arguments for rgb/rgba", st2.span)
        else
          match vals with
          | v0 :: v1 :: v2 :: rest =>
              match parseU8 v0, parseU8 v1, parseU8 v2 with
              | some r, some g, some b =>
                  match rest with
                  | [] => PResult.ok st2 (Value.Color (ColorValue.Rgb r g b))
                  | v3 :: _ =>
                      match parseF32 v3 with
                      | some a => PResult.ok st2 (Value.Color (ColorValue.Rgba r g b a))
                      | none => PResult.panicked "f32 unwrap"
              | _, _, _ => PResult.panicked "u8 unwrap"
          | _ => PResult.panicked "unreachable") := by
      have hb : parse_function (fuel + 1) "rgb" st = (match rgbLoop st [] with
        | .ok st2 vals =>
            if vals.length < 3 || vals.length > 4 then
              PResult.err ("Invalid number of arguments for rgb/rgba", st2.span)
            else
              match vals with
              | v0 :: v1 :: v2 :: rest =>
                  match parseU8 v0, parseU8 v1, parseU8 v2 with
                  | some r, some g, some b =>
                      match rest with
                      | [] => PResult.ok st2 (Value.Color (ColorValue.Rgb r g b))
                      | v3 :: _ =>
                          match parseF32 v3 with
                          | some a => PResult.ok st2 (Value.Color (ColorValue.Rgba r g b a))
                          | none => PResult.panicked "f32 unwrap"
                  | _, _, _ => PResult.panicked "u8 unwrap"
              | _ => PResult.panicked "unreachable"
        | .err e => PResult.err e
        | .panicked r => PResult.panicked r
        | .noFuel => PResult.noFuel) := rfl
      rw [h] at hb
      exact hb
    refine ⟨⟨?_, ?_⟩, rfl, ?_, ?_⟩
    · -- forward direction of the arity iff
      intro he
      refine ⟨fun h3 => ?_, fun h4 => ?_⟩
      · have hcond : ¬((vals.length < 3 || vals.length > 4) = true) := by
          simp only [Bool.or_eq_true, decide_eq_true_eq]; omega
        rw [if_neg hcond] at hbody
        rcases vals with _ | ⟨v0, vs⟩
        · simp at h3
        rcases vs with _ | ⟨v1, vs⟩
        · simp at h3
        rcases vs with _ | ⟨v2, rest⟩
        · simp at h3
        have hrest : rest = [] := by simpa using h3
        subst hrest
        rw [hbody] at he
        revert he
        cases hu0 : parseU8 v0 <;> cases hu1 : parseU8 v1 <;> cases hu2 : parseU8 v2 <;>
          simp [hu0, hu1, hu2]
      · have hcond : ¬((vals.length < 3 || vals.length > 4) = true) := by
          simp only [Bool.or_eq_true, decide_eq_true_eq]; omega
        rw [if_neg hcond] at hbody
        rcases vals with _ | ⟨v0, vs⟩
        · simp at h4
        rcases vs with _ | ⟨v1, vs⟩
        · simp at h4
        rcases vs with _ | ⟨v2, rest⟩
        · simp at h4
        rcases rest with _ | ⟨v3, rest⟩
        · simp at h4
        have hrest : rest = [] := by simpa using h4
        subst hrest
        rw [hbody] at he
        revert he
        cases hu0 : parseU8 v0 <;> cases hu1 : parseU8 v1 <;> cases hu2 : parseU8 v2 <;>
          cases hu3 : parseF32 v3 <;> simp [hu0, hu1, hu2, hu3]
    · -- backward direction of the arity iff
      intro hne
      have hcond : (vals.length < 3 || vals.length > 4) = true := by
        simp only [Bool.or_eq_true, decide_eq_true_eq]; omega
      rw [if_pos hcond] at hbody
      exact hbody
    · -- three arguments yield Rgb
      intro v0 v1 v2 r g b hv hu0 hu1 hu2
      subst hv
      rw [if_neg (by simp)] at hbody
      simpa [hu0, hu1, hu2] using hbody
    · -- four arguments yield Rgba
      intro v0 v1 v2 v3 r g b a hv hu0 hu1 hu2 hu3
      subst hv
      rw [if_neg (by simp)] at hbody
      simpa [hu0, hu1, hu2, hu3] using hbody
  · intro fuel st st2 vals h
    have hbody : parse_function (fuel + 1) "rect" st =
        (if vals.length ≠ 4 then
          PResult.err ("Invalid number of arguments for rect", st2.span)
        else
          match vals.mapM parseF64 with
          | some ds => PResult.ok st2 (Value.Function "rect" (ds.map Value.Number))
          | none => PResult.panicked "f64 unwrap") := by
      have hb : parse_function (fuel + 1) "rect" st = (match rectLoop st [] with
        | .ok st2 vals =>
            if vals.length ≠ 4 then
              PResult.err ("Invalid number of arguments for rect", st2.span)
            else
              match vals.mapM parseF64 with
              | some ds => PResult.ok st2 (Value.Function "rect" (ds.map Value.Number))
              | none => PResult.panicked "f64 unwrap"
        | .err e => PResult.err e
        | .panicked r => PResult.panicked r
        | .noFuel => PResult.noFuel) := rfl
      rw [h] at hb
      exact hb
    constructor
    · constructor
      · intro he
        by_contra h4
        rw [if_neg (by omega)] at hbody
        rw [hbody] at he
        revert he
        cases hm : vals.mapM parseF64 <;> simp [hm]
      · intro hne
        rw [if_pos hne] at hbody
        exact hbody
    · intro ds h4 hm
      rw [if_neg (by omega)] at hbody
      rw [hm] at hbody
      exact hbody

/-- C5 witness: a single collected argument (`rgb(1)`) produces the
`InvalidArity` error by the arity characterization. -/
theorem claim5_witness :
    parse_function 1 "rgb"
        (mkParser [(.ok (Tok.Number "1"), ⟨0, 1⟩), (.ok (Tok.Delim ")"), ⟨1, 2⟩)]) =
      .err ("Invalid number of arguments for rgb/rgba", ⟨1, 2⟩) :=
  ((claim5_invalid_arity.1 0
      (mkParser [(.ok (Tok.Number "1"), ⟨0, 1⟩), (.ok (Tok.Delim ")"), ⟨1, 2⟩)])
      ⟨none, [], ⟨1, 2⟩⟩ ["1"] (by rfl)).1).mpr (by decide)

/-- C6: `rgb` with three integer arguments in `0..255` produces
`Color(Rgb)` whose fields equal those integers exactly — no rounding, no
clamping — both at the token level (for any argument strings whose `u8`
parses give the integers) and for the concrete sample input. -/
theorem claim6_rgb_exact :
    (∀ fuel st st2 sr sg sb r g b, rgbLoop st [] = .ok st2 [sr, sg, sb] →
      parseU8 sr = some r → parseU8 sg = some g → parseU8 sb = some b →
      parse_function (fuel + 1) "rgb" st = .ok st2 (Value.Color (ColorValue.Rgb r g b))) ∧
    (∃ stF, parse_stylesheet_str 300 "body \x7b color: rgb(255, 0, 0); \x7d" =
      .ok stF ⟨[Rule.RuleSet [Selector.Simple ⟨some "body", none, []⟩]
        [⟨"color", [Value.Color (ColorValue.Rgb 255 0 0)]⟩] []]⟩) := by
  refine ⟨?_, ⟨_, rfl⟩⟩
  intro fuel st st2 sr sg sb r g b h hu0 hu1 hu2
  have hbody : parse_function (fuel + 1) "rgb" st = (match rgbLoop st [] with
    | .ok st2 vals =>
        if vals.length < 3 || vals.length > 4 then
          PResult.err ("Invalid number of arguments for rgb/rgba", st2.span)
        else
          match vals with
          | v0 :: v1 :: v2 :: rest =>
              match parseU8 v0, parseU8 v1, parseU8 v2 with
              | some r, some g, some b =>
                  match rest with
                  | [] => PResult.ok st2 (Value.Color (ColorValue.Rgb r g b))
                  | v3 :: _ =>
                      match parseF32 v3 with
                      | some a => PResult.ok st2 (Value.Color (ColorValue.Rgba r g b a))
                      | none => PResult.panicked "f32 unwrap"
              | _, _, _ => PResult.panicked "u8 unwrap"
          | _ => PResult.panicked "unreachable"
    | .err e => PResult.err e
    | .panicked r => PResult.panicked r
    | .noFuel => PResult.noFuel) := rfl
  rw [h] at hbody
  simpa [hu0, hu1, hu2] using hbody

/-- C6 witness: the exactness applied at the token stream of
`rgb(255, 0, 0)` — the parsed fields are literally 255, 0, 0. -/
theorem claim6_witness :
    parse_function 1 "rgb"
        (mkParser [(.ok (Tok.Number "255"), ⟨0, 3⟩), (.ok (Tok.Delim ","), ⟨3, 4⟩),
          (.ok (Tok.Number "0"), ⟨5, 6⟩), (.ok (Tok.Delim ","), ⟨6, 7⟩),
          (.ok (Tok.Number "0"), ⟨8, 9⟩), (.ok (Tok.Delim ")"), ⟨9, 10⟩)]) =
      .ok ⟨none, [], ⟨9, 10⟩⟩ (Value.Color (ColorValue.Rgb 255 0 0)) :=
  claim6_rgb_exact.1 0 _ ⟨none, [], ⟨9, 10⟩⟩ "255" "0" "0" 255 0 0 (by rfl) rfl rfl rfl
